import Mathlib

/-!
Shallow embedding of the MSO5000 SCPI probing scripts (doom.py, doom2.py,
scpi_doom_tester.py).

The scripts send SCPI query strings through a VISA transport and classify
each response.  The transport is modelled as a function
`String → Except String String`: a successful `scope.query(cmd)` call is
`Except.ok text` and a raised exception is `Except.error message`.  File
contents are modelled as lists of lines, random choices as explicit input
streams, and every prober records the commands it actually passed to the
transport's `query` primitive in a `queried` trace field.

Python string primitives (`strip`, `rstrip`, substring `in`, `replace`,
`split`, `join`) are re-implemented on character lists so that proofs can
reason about them directly; each definition notes the source construct it
embeds.
-/

/-! ### Python string primitives -/

/-- Character-list version of Python `s.startswith(pat)`: `startsWithList pat s`
is true when `pat` is an initial segment of `s`. -/
def startsWithList : List Char → List Char → Bool
  | [], _ => true
  | _ :: _, [] => false
  | p :: ps, c :: cs => p == c && startsWithList ps cs

/-- Character-list version of Python's substring test `pat in s`. -/
def containsList (pat : List Char) : List Char → Bool
  | [] => pat.isEmpty
  | c :: cs => startsWithList pat (c :: cs) || containsList pat cs

/-- Python substring test `pat in s` on strings. -/
def containsSub (s pat : String) : Bool :=
  containsList pat.data s.data

/-- Python `s.strip()` on a character list: drop whitespace from both ends. -/
def pyStripChars (l : List Char) : List Char :=
  ((l.dropWhile Char.isWhitespace).reverse.dropWhile Char.isWhitespace).reverse

/-- Python `s.strip()`. -/
def pyStrip (s : String) : String :=
  String.mk (pyStripChars s.data)

/-- Python `s.rstrip(c)` for a single strip character `c`: drop every trailing
occurrence of `c`. -/
def pyRstripChar (s : String) (c : Char) : String :=
  String.mk ((s.data.reverse.dropWhile (· == c)).reverse)

/-- Python `s.replace("::", ":")` on a character list: scan left to right and
contract each non-overlapping occurrence of two consecutive colons into one,
continuing after the replacement, exactly as `str.replace` does. -/
def collapseColons : List Char → List Char
  | ':' :: ':' :: rest => ':' :: collapseColons rest
  | c :: rest => c :: collapseColons rest
  | [] => []

/-- Python `s.replace("::", ":")` on strings. -/
def pyCollapse (s : String) : String :=
  String.mk (collapseColons s.data)

/-- Python `s.isalpha()`: non-empty and all characters alphabetic. -/
def pyIsAlpha (s : String) : Bool :=
  !s.data.isEmpty && s.data.all Char.isAlpha

/-- Python `s.split(":")` on a character list, with an accumulator for the
current (reversed) segment. -/
def splitColonChars : List Char → List Char → List (List Char)
  | [], acc => [acc.reverse]
  | c :: cs, acc =>
    if c = ':' then acc.reverse :: splitColonChars cs []
    else splitColonChars cs (c :: acc)

/-- Python `s.split(":")`: the colon-separated segments, keeping empties. -/
def pySplitColon (s : String) : List String :=
  (splitColonChars s.data []).map String.mk

/-- Python `s.upper()` (ASCII range, which covers every use in the
scripts). -/
def pyToUpper (s : String) : String :=
  String.mk (s.data.map Char.toUpper)

/-- The last character of a string, if any. -/
def lastChar? (s : String) : Option Char :=
  s.data.getLast?

/-- Whether a string ends with the character `?`. -/
def endsWithQM (s : String) : Bool :=
  lastChar? s == some '?'

/-- Python format spec `f"{s:<40}"`: left-align and pad with spaces to width
`w` (no-op when `s` is at least `w` characters long). -/
def padTo (w : Nat) (s : String) : String :=
  s ++ String.mk (List.replicate (w - s.length) ' ')

/-! ### Shared constants of the scripts -/

/-- `SKIP_PATTERNS` (doom.py line 26, doom2.py line 16,
scpi_doom_tester.py line 7). -/
def SKIP_PATTERNS : List String := ["WAV:DATA?", "DISPlay:DATA?"]

/-- `any(skip in cmd for skip in SKIP_PATTERNS)`. -/
def isSkipped (cmd : String) : Bool :=
  SKIP_PATTERNS.any fun p => containsSub cmd p

/-- The dry-run marker result string used by doom.py. -/
def dryMark : String := "💤 (dry-run)"

/-! ### Response classification -/

/-- Response classification of doom.py (`test_all` lines 138-145, and
identically `test_group`, `fuzz_scope`): an exception becomes an error
string carrying the exception message, a response is stripped and classified
as success exactly when non-empty. -/
def classifyResponse (q : Except String String) : String :=
  match q with
  | .error e => "❌ " ++ e
  | .ok raw =>
    let r := pyStrip raw
    if r ≠ "" then "✅ " ++ r else "⚠️ Empty"

/-- Response classification of scpi_doom_tester.py `test_scope`
(lines 46-54); same shape with a different empty marker. -/
def classifyTester (q : Except String String) : String :=
  match q with
  | .error e => "❌ " ++ e
  | .ok raw =>
    let r := pyStrip raw
    if r ≠ "" then "✅ " ++ r else "⚠️ Empty response"

/-! ### doom.py `test_all` / `test_group`, and doom2.py `test_all` -/

/-- Accumulated output of a test loop: the `(command, result)` pairs appended
to `results`, and the trace of commands actually passed to `scope.query`. -/
structure TestOutput where
  results : List (String × String)
  queried : List String
  deriving Repr, DecidableEq

/-- One iteration of the doom.py `test_all` loop (lines 133-147): strip the
command, skip it when it contains a skip pattern, otherwise classify either
the dry-run marker or the transport response and append one result pair. -/
def testStep (query : String → Except String String) (dryRun : Bool)
    (acc : TestOutput) (cmd0 : String) : TestOutput :=
  let cmd := pyStrip cmd0
  if isSkipped cmd then acc
  else if dryRun then
    ⟨acc.results ++ [(cmd, dryMark)], acc.queried⟩
  else
    ⟨acc.results ++ [(cmd, classifyResponse (query cmd))], acc.queried ++ [cmd]⟩

/-- doom.py `test_all` (lines 130-148) over an explicit command list. -/
def test_all (cmds : List String) (query : String → Except String String)
    (dryRun : Bool) : TestOutput :=
  cmds.foldl (testStep query dryRun) ⟨[], []⟩

/-- doom.py `test_group` (lines 150-171): filter the known commands by the
upper-cased group name and run the identical test loop. -/
def test_group (grp : String) (cmds : List String)
    (query : String → Except String String) (dryRun : Bool) : TestOutput :=
  test_all (cmds.filter fun c => c.startsWith (":" ++ grp.toUpper)) query dryRun

/-- doom2.py `test_all` (lines 110-121): every command is queried and yields
one result pair; there is no skip-pattern check, no strip of the command and
no dry-run mode. -/
def doom2_test_all (cmds : List String)
    (query : String → Except String String) : TestOutput :=
  cmds.foldl
    (fun acc cmd =>
      ⟨acc.results ++ [(cmd, classifyResponse (query cmd))], acc.queried ++ [cmd]⟩)
    ⟨[], []⟩

/-- The result list doom.py `test_all` is expected to produce: one pair per
stripped, non-skipped command, in order. -/
def testResultsSpec (cmds : List String) (query : String → Except String String)
    (dryRun : Bool) : List (String × String) :=
  ((cmds.map pyStrip).filter fun c => !isSkipped c).map
    fun c => (c, if dryRun then dryMark else classifyResponse (query c))

/-- The query trace doom.py `test_all` is expected to produce. -/
def testQueriedSpec (cmds : List String) (dryRun : Bool) : List String :=
  if dryRun then [] else (cmds.map pyStrip).filter fun c => !isSkipped c

/-- doom.py `save_log` (lines 486-493): the lines written to the single log
file, an optional IDN header followed by one aligned line per result pair. -/
def save_log (results : List (String × String)) (idn : Option String) :
    List String :=
  (match idn with
   | some s => ["# Scope IDN: " ++ s]
   | none => []) ++
    results.map fun p => padTo 40 p.1 ++ " → " ++ p.2

/-- The doom.py `test` mode end to end (lines 130-148): run the loop, then
write exactly one log file via `save_log`; the second component is the list
of written files, each represented by its lines. -/
def test_all_run (cmds : List String) (query : String → Except String String)
    (dryRun : Bool) (idn : Option String) : TestOutput × List (List String) :=
  let o := test_all cmds query dryRun
  (o, [save_log o.results idn])

/-! ### doom.py `learn_scope` -/

/-- The namespace roots `learn_scope` samples from (doom.py lines 237-240). -/
def learnRoots : List String :=
  ["CHANnel1", "MATH1", "BUS1", "TRIGger", "DISPlay",
   "WAVeform", "MEASure", "TIMebase", "SYSTem", "POWer"]

/-- The subcommands `learn_scope` samples from (doom.py lines 242-246). -/
def learnSubs : List String :=
  ["SCALe", "OFFSet", "COUPling", "STATus", "GRADing", "FORM",
   "SOURce", "OPERator", "MODE", "TYPE", "DISPlay", "REFLevel",
   "QUALity", "RIPPle"]

/-- Candidate construction of `learn_scope` (doom.py line 247):
`f":{cmd_root}:{subcmd}?"`. -/
def learnCandidate (root sub : String) : String :=
  ":" ++ root ++ ":" ++ sub ++ "?"

/-- Accumulated state of a `learn_scope` run. -/
structure LearnState where
  discovered : List (String × String)
  queried : List String
  deriving Repr, DecidableEq

/-- One attempt of the doom.py `learn_scope` loop (lines 233-262).  The random
root/subcommand draw is supplied as `choice`; in `--prefix` mode the root is
the fixed upper-cased user value, which is a particular choice stream.
Candidates that are known, already discovered, or contain a skip pattern are
passed over without querying; a raised exception is swallowed (`except
Exception: continue`) and recorded in no result list. -/
def learnStep (known : List String) (query : String → Except String String)
    (dryRun : Bool) (st : LearnState) (choice : String × String) : LearnState :=
  let cmd := learnCandidate choice.1 choice.2
  if cmd ∈ known ∨ cmd ∈ st.discovered.map Prod.fst ∨ isSkipped cmd = true then st
  else if dryRun then ⟨st.discovered ++ [(cmd, dryMark)], st.queried⟩
  else
    match query cmd with
    | .error _ => ⟨st.discovered, st.queried ++ [cmd]⟩
    | .ok raw =>
      let r := pyStrip raw
      if r ≠ "" then ⟨st.discovered ++ [(cmd, r)], st.queried ++ [cmd]⟩
      else ⟨st.discovered, st.queried ++ [cmd]⟩

/-- doom.py `learn_scope` (lines 227-284), probing part: fold the attempt
loop over the stream of random choices. -/
def learn_scope (known : List String) (query : String → Except String String)
    (dryRun : Bool) (choices : List (String × String)) : LearnState :=
  choices.foldl (learnStep known query dryRun) ⟨[], []⟩

/-! ### Persistence of learned commands -/

/-- The learned-command line cleanup shared by every loader:
`[line.strip() for line in f if line.strip()]`. -/
def cleanLines (lines : List String) : List String :=
  (lines.map pyStrip).filter fun l => l ≠ ""

/-- Python `sorted(set(l))` for strings: duplicates removed, ascending
lexicographic order. -/
def pySortedSet (l : List String) : List String :=
  List.insertionSort (· ≤ ·) l.dedup

/-- doom.py `load_all_commands` (lines 68-84) and doom2.py `load_all_commands`
(lines 55-64): the static command file merged with the learned file as a set,
returned sorted.  The two file contents are passed as line lists; a missing
learned file is the empty list. -/
def load_all_commands (staticLines learnedLines : List String) : List String :=
  pySortedSet (cleanLines staticLines ++ cleanLines learnedLines)

/-- The three persistent files a doom.py run touches: the static command list
`scpi_command_list.txt`, the generic learned file
`learned_scpi_commands_latest.txt` (read by `load_all_commands` when no IDN
is passed, as in `learn_scope`/`smart_learn_scope`/`focus_probe`), and the
per-instrument `learned_scpi_latest_<tag>.txt` (read when an IDN is passed,
as in `test_all`, and written by `learn_scope`). -/
structure Store where
  staticLines : List String
  latestGeneric : List String
  latestTag : List String
  deriving Repr, DecidableEq

/-- Content written to both the timestamped and the latest learned file at
the end of `learn_scope` (doom.py lines 273-284; doom2.py lines 215-225 are
the same block without the `.strip()`): nothing when the run discovered
nothing, otherwise exactly this run's discovered commands. -/
def learnWrites (discovered : List (String × String)) : Option (List String) :=
  if discovered.isEmpty then none
  else some (discovered.map fun p => pyStrip p.1)

/-- One doom.py `learn` invocation against a file store: the known set is
read at process start via `load_all_commands()` with no IDN (doom.py line
228), and at process end the per-instrument latest file is rewritten (mode
`"w"`) with the run's discoveries, if any. -/
def learnRunStore (store : Store) (query : String → Except String String)
    (choices : List (String × String)) : LearnState × Store :=
  let known := load_all_commands store.staticLines store.latestGeneric
  let st := learn_scope known query false choices
  match learnWrites st.discovered with
  | none => (st, store)
  | some content => (st, { store with latestTag := content })

/-- The known-command set a subsequent doom.py `test` run on the same
instrument reads: `load_all_commands(idn=idn)` merges the per-instrument
latest file (doom.py lines 68-84, 131). -/
def testRunKnown (store : Store) : List String :=
  load_all_commands store.staticLines store.latestTag

/-! ### doom.py `smart_learn_scope` -/

/-- The suffix guesses of `smart_learn_scope` (doom.py lines 303-311). -/
def guessSuffixes : List String :=
  ["MODE?", "SOURce?", "FORMat?", "STATus?", "ENABle?", "TYPE?", "SCALe?",
   "OFFSet?", "COUPling?", "OPERator?", "DISPlay?", "RIPPle?", "PERCent?",
   "ABSolute?", "LOW?", "HIGH?", "MID?", "FREQreference?", "QUALity?",
   "QUALity:DISPlay?", "QUALity:STATe?", "QUALity:VALue?",
   "QUALity:ALL?", "QUALity:VOLTage?", "QUALity:CURRent?", "QUALity:THD?",
   "QUALity:WATTs?", "QUALity:FACTOR?", "QUALity:FREQ?", "QUALity:HARMonics?",
   "QUALity:CREST?", "QUALity:VRMS?", "QUALity:IRMS?", "QUALity:PF?",
   "QUALity:PHASes?"]

/-- `base_cmd = ":" + ":".join(base_path)` (doom.py line 323). -/
def smartBase (path : List String) : String :=
  ":" ++ String.intercalate ":" path

/-- Trial construction of `smart_learn_scope` (doom.py lines 327-328):
append the suffix and contract double colons. -/
def smartTrial (path : List String) (suffix : String) : String :=
  pyCollapse (smartBase path ++ ":" ++ suffix)

/-- Accumulated state of a `smart_learn_scope` run: the BFS work queue holds
command paths (the tree node riding along in the source is never consulted
inside the loop). -/
structure SmartState where
  discovered : List (String × String)
  queried : List String
  seen : List String
  queue : List (List String)
  deriving Repr, DecidableEq

/-- One suffix trial of `smart_learn_scope` (doom.py lines 326-354): skip
trials that are known, seen or contain a skip pattern; otherwise mark seen,
then query; a non-empty response is recorded and enqueues the deeper path;
exceptions are swallowed. -/
def smartTrialStep (known : List String) (query : String → Except String String)
    (dryRun : Bool) (path : List String) (st : SmartState) (suffix : String) :
    SmartState :=
  let trial := smartTrial path suffix
  if trial ∈ known ∨ trial ∈ st.seen ∨ isSkipped trial = true then st
  else
    let st1 : SmartState := { st with seen := st.seen ++ [trial] }
    if dryRun then { st1 with discovered := st1.discovered ++ [(trial, dryMark)] }
    else
      match query trial with
      | .error _ => { st1 with queried := st1.queried ++ [trial] }
      | .ok raw =>
        let r := pyStrip raw
        if r ≠ "" then
          { st1 with
            discovered := st1.discovered ++ [(trial, r)],
            queried := st1.queried ++ [trial],
            queue := st1.queue ++ [path ++ [pyToUpper (pyRstripChar suffix '?')]] }
        else { st1 with queried := st1.queried ++ [trial] }

/-- Pop one path off the BFS queue and run every suffix trial on it
(doom.py lines 321-328). -/
def smartPop (known : List String) (query : String → Except String String)
    (dryRun : Bool) (st : SmartState) : SmartState :=
  match st.queue with
  | [] => st
  | path :: rest =>
    guessSuffixes.foldl (smartTrialStep known query dryRun path)
      { st with queue := rest }

/-- The `while queue:` loop of `smart_learn_scope`, with explicit fuel: the
source loop can run unboundedly when the instrument keeps answering, so the
model bounds the number of queue pops. -/
def smart_learn_loop (known : List String) (query : String → Except String String)
    (dryRun : Bool) : Nat → SmartState → SmartState
  | 0, st => st
  | fuel + 1, st =>
    if st.queue = [] then st
    else smart_learn_loop known query dryRun fuel (smartPop known query dryRun st)

/-- doom.py `smart_learn_scope` (lines 286-357), probing part: BFS from the
user's upper-cased dotted path with an empty seen set. -/
def smart_learn_scope (known : List String)
    (query : String → Except String String) (dryRun : Bool) (fuel : Nat)
    (pfxParts : List String) : SmartState :=
  smart_learn_loop known query dryRun fuel ⟨[], [], [], [pfxParts]⟩

/-! ### doom.py `focus_probe` -/

/-- `POWER_QUALITY_GUESSES` (doom.py lines 20-24), the default wordlist of
`focus_probe`. -/
def POWER_QUALITY_GUESSES : List String :=
  ["VRMS?", "IRMS?", "THD?", "CREST?", "FACTOR?", "FREQ?", "WATT?", "RIPPle?",
   "PF?", "REAL?", "REACtive?", "APPArent?", "SAG?", "ANGLE?", "PHASes?",
   "VOLTage?", "CURRent?", "VALue?", "ALL?", "ENERgy?", "CALCulate?", "STATe?"]

/-- The follow-up suffixes of the depth>1 branch (doom.py line 432). -/
def deepSuffixes : List String := ["?", "VALue?", "STATe?", "RMS?"]

/-- Top-level candidate construction of `focus_probe` (doom.py line 407):
`cmd = prefix.rstrip(":") + ":" + suffix`. -/
def focusCandidate (pfx suffix : String) : String :=
  pyRstripChar pfx ':' ++ ":" ++ suffix

/-- Follow-up candidate construction of the depth>1 branch (doom.py lines
430-434): split the answering command on colons, append the upper-cased
response as a new path segment, rejoin with the follow-up suffix and contract
double colons. -/
def deepCandidate (cmd r suffix2 : String) : String :=
  pyCollapse
    (":" ++ String.intercalate ":"
        (pySplitColon (pyRstripChar cmd '?') ++ [pyToUpper (pyStrip r)]) ++
      ":" ++ suffix2)

/-- Accumulated state of a `focus_probe` run.  `queriedTop` and `queriedDeep`
trace the two `scope.query` call sites (lines 417 and 439); `cmdFileAppends`
are the lines appended to the static `scpi_command_list.txt`; `csvRows` the
data rows written when `--save-csv` is active. -/
structure FocusState where
  discovered : List (String × String)
  queriedTop : List String
  queriedDeep : List String
  seen : List String
  cmdFileAppends : List String
  csvRows : List (String × String)
  deriving Repr, DecidableEq

/-- One follow-up trial of the depth>1 branch (doom.py lines 432-448): only
the `seen` set is consulted — neither the known set nor the skip patterns —
then the candidate is queried; failures are ignored (`except: pass`). -/
def focusDeepStep (query : String → Except String String) (saveCsv : Bool)
    (cmd r : String) (st : FocusState) (suffix2 : String) : FocusState :=
  let deep := deepCandidate cmd r suffix2
  if deep ∈ st.seen then st
  else
    let st1 : FocusState := { st with seen := st.seen ++ [deep] }
    match query deep with
    | .error _ => { st1 with queriedDeep := st1.queriedDeep ++ [deep] }
    | .ok raw2 =>
      let dr := pyStrip raw2
      let st2 : FocusState := { st1 with queriedDeep := st1.queriedDeep ++ [deep] }
      if dr ≠ "" then
        { st2 with
          discovered := st2.discovered ++ [(deep, dr)],
          csvRows := if saveCsv then st2.csvRows ++ [(deep, dr)] else st2.csvRows,
          cmdFileAppends := st2.cmdFileAppends ++ [deep] }
      else st2

/-- One wordlist iteration of `focus_probe` (doom.py lines 406-457): skip
candidates that are known, seen or contain a skip pattern; otherwise mark
seen and query.  A non-empty response is recorded, appended to the static
command file and the CSV, and — when `depth > 1` and the response is a short
alphabetic word — expanded through the follow-up trials. -/
def focusStep (known : List String) (query : String → Except String String)
    (dryRun saveCsv : Bool) (depth : Nat) (pfx : String)
    (st : FocusState) (suffix : String) : FocusState :=
  let cmd := focusCandidate pfx suffix
  if cmd ∈ known ∨ cmd ∈ st.seen ∨ isSkipped cmd = true then st
  else
    let st1 : FocusState := { st with seen := st.seen ++ [cmd] }
    if dryRun then { st1 with discovered := st1.discovered ++ [(cmd, dryMark)] }
    else
      match query cmd with
      | .error _ => { st1 with queriedTop := st1.queriedTop ++ [cmd] }
      | .ok raw =>
        let r := pyStrip raw
        let st2 : FocusState := { st1 with queriedTop := st1.queriedTop ++ [cmd] }
        if r ≠ "" then
          let st3 : FocusState :=
            { st2 with
              discovered := st2.discovered ++ [(cmd, r)],
              cmdFileAppends :=
                if cmd ∈ known then st2.cmdFileAppends
                else st2.cmdFileAppends ++ [cmd],
              csvRows := if saveCsv then st2.csvRows ++ [(cmd, r)] else st2.csvRows }
          if 1 < depth ∧ pyIsAlpha r = true ∧ r.length < 12 then
            deepSuffixes.foldl (focusDeepStep query saveCsv cmd r) st3
          else st3
        else st2

/-- doom.py `focus_probe` (lines 372-484), probing part: fold over the
wordlist (the user-supplied `--wordlist` file, or `POWER_QUALITY_GUESSES` by
default). -/
def focus_probe (known : List String) (query : String → Except String String)
    (dryRun saveCsv : Bool) (depth : Nat) (pfx : String)
    (wordlist : List String) : FocusState :=
  wordlist.foldl (focusStep known query dryRun saveCsv depth pfx)
    ⟨[], [], [], [], [], []⟩

/-- The file outputs of one `focus_probe` run (doom.py lines 391-396 and
468-484): the CSV file exists whenever `--save-csv` was given — it is opened
with its header before the loop — while the timestamped and latest
learned-focus files exist only when something was discovered; `staticAppends`
are the in-run appends to `scpi_command_list.txt`. -/
structure FocusWrites where
  csv : Option (List (String × String))
  learned : Option (List String)
  staticAppends : List String
  deriving Repr, DecidableEq

/-- Assemble the file outputs of a finished `focus_probe` run. -/
def focusRunWrites (st : FocusState) (saveCsv : Bool) : FocusWrites :=
  { csv := if saveCsv then some st.csvRows else none,
    learned :=
      if st.discovered.isEmpty then none
      else some (st.discovered.map fun p => p.1 ++ " → " ++ p.2),
    staticAppends := st.cmdFileAppends }

/-! ### doom.py `run_waveform_test` and `fuzz_scope` -/

/-- The commands `run_waveform_test` (doom.py lines 189-201) passes to the
transport's `query` primitive. -/
def run_waveform_test_queries : List String := [":WAV:PRE?"]

/-- The command `run_waveform_test` passes to the separate
`query_binary_values` primitive (doom.py line 198). -/
def run_waveform_test_binary_queries : List String := [":WAV:DATA?"]

/-- The roots `fuzz_scope` samples from (doom.py line 208). -/
def fuzzRoots : List String :=
  ["CHANnel1", "MATH1", "BUS1", "TRIGger", "DISPlay", "WAVeform"]

/-- The subcommands `fuzz_scope` samples from (doom.py line 209). -/
def fuzzSubs : List String :=
  ["SCALe", "OFFSet", "COUPling", "STATus", "GRADing", "FORM", "SOURce"]

/-- Candidate construction of `fuzz_scope` (doom.py lines 207-210). -/
def fuzzCandidate (root sub : String) : String :=
  ":" ++ root ++ ":" ++ sub ++ "?"

/-! ### Helper lemmas -/

theorem foldlInv {σ α : Type} (f : σ → α → σ) (P : σ → Prop)
    (hstep : ∀ t a, P t → P (f t a)) :
    ∀ (l : List α) (s : σ), P s → P (l.foldl f s) := by
  intro l
  induction l with
  | nil => intro s hs; exact hs
  | cons x xs ih => intro s hs; exact ih (f s x) (hstep s x hs)

theorem foldl_testStep_eq (query : String → Except String String) (dryRun : Bool) :
    ∀ (cmds : List String) (acc : TestOutput),
      cmds.foldl (testStep query dryRun) acc =
        ⟨acc.results ++ testResultsSpec cmds query dryRun,
         acc.queried ++ testQueriedSpec cmds dryRun⟩ := by
  intro cmds
  induction cmds with
  | nil =>
    intro acc
    simp [testResultsSpec, testQueriedSpec]
  | cons c cs ih =>
    intro acc
    rw [List.foldl_cons, ih]
    by_cases hs : isSkipped (pyStrip c) = true
    · simp [testStep, hs, testResultsSpec, testQueriedSpec]
    · by_cases hd : dryRun = true <;>
        simp [testStep, hs, hd, testResultsSpec, testQueriedSpec]

theorem test_all_eq (cmds : List String) (query : String → Except String String)
    (dryRun : Bool) :
    test_all cmds query dryRun =
      ⟨testResultsSpec cmds query dryRun, testQueriedSpec cmds dryRun⟩ := by
  simp [test_all, foldl_testStep_eq]

theorem doom2_test_all_eq (cmds : List String)
    (query : String → Except String String) :
    doom2_test_all cmds query =
      ⟨cmds.map fun c => (c, classifyResponse (query c)), cmds⟩ := by
  have go : ∀ (l : List String) (acc : TestOutput),
      l.foldl
        (fun acc cmd =>
          TestOutput.mk (acc.results ++ [(cmd, classifyResponse (query cmd))])
            (acc.queried ++ [cmd])) acc =
        ⟨acc.results ++ l.map fun c => (c, classifyResponse (query c)),
         acc.queried ++ l⟩ := by
    intro l
    induction l with
    | nil => intro acc; simp
    | cons c cs ih => intro acc; simp [ih]
  simpa using go cmds ⟨[], []⟩

theorem getLast?_cons_of_ne_nil {α : Type} (a : α) {l : List α} (h : l ≠ []) :
    (a :: l).getLast? = l.getLast? := by
  cases l with
  | nil => exact absurd rfl h
  | cons b bs => exact List.getLast?_cons_cons

theorem collapseColons_eq_nil_iff : ∀ l : List Char, collapseColons l = [] ↔ l = [] := by
  intro l
  induction l using collapseColons.induct with
  | case1 rest ih => simp [collapseColons]
  | case2 c rest h ih => simp [collapseColons]
  | case3 => simp [collapseColons]

theorem collapseColons_getLast? :
    ∀ l : List Char, (collapseColons l).getLast? = l.getLast? := by
  intro l
  induction l using collapseColons.induct with
  | case1 rest ih =>
    cases rest with
    | nil => simp [collapseColons]
    | cons a as =>
      have hne : collapseColons (a :: as) ≠ [] := by
        intro hc
        exact List.cons_ne_nil a as ((collapseColons_eq_nil_iff (a :: as)).mp hc)
      rw [show collapseColons (':' :: ':' :: a :: as) =
            ':' :: collapseColons (a :: as) from rfl]
      rw [getLast?_cons_of_ne_nil _ hne, ih,
        List.getLast?_cons_cons, List.getLast?_cons_cons]
  | case2 c rest h ih =>
    cases rest with
    | nil => simp [collapseColons]
    | cons a as =>
      have hne : collapseColons (a :: as) ≠ [] := by
        intro hc
        exact List.cons_ne_nil a as ((collapseColons_eq_nil_iff (a :: as)).mp hc)
      have hstep : collapseColons (c :: a :: as) = c :: collapseColons (a :: as) := by
        simp [collapseColons, h]
      rw [hstep, getLast?_cons_of_ne_nil _ hne, ih, List.getLast?_cons_cons]
  | case3 => simp [collapseColons]

theorem endsWithQM_pyCollapse (s : String) (h : endsWithQM s = true) :
    endsWithQM (pyCollapse s) = true := by
  unfold endsWithQM lastChar? at *
  unfold pyCollapse
  simpa [collapseColons_getLast?] using h

theorem endsWithQM_append (a b : String) (h : endsWithQM b = true) :
    endsWithQM (a ++ b) = true := by
  unfold endsWithQM lastChar? at *
  rw [String.data_append, List.getLast?_append]
  cases hb : b.data.getLast? with
  | none => rw [hb] at h; simp at h
  | some x => rw [hb] at h; simpa [Option.or] using h

theorem dropWhile_eq_self_of_head {p : Char → Bool} {l : List Char}
    (h : ∀ c, l.head? = some c → p c = false) : l.dropWhile p = l := by
  cases l with
  | nil => rfl
  | cons a as => simp [List.dropWhile_cons, h a rfl]

theorem pyStripChars_eq_self {l : List Char}
    (h1 : ∀ c, l.head? = some c → c.isWhitespace = false)
    (h2 : ∀ c, l.getLast? = some c → c.isWhitespace = false) :
    pyStripChars l = l := by
  unfold pyStripChars
  rw [dropWhile_eq_self_of_head h1]
  rw [dropWhile_eq_self_of_head
    (fun c hc => h2 c (by rwa [List.head?_reverse] at hc))]
  exact l.reverse_reverse

theorem learnCandidate_data_head (root sub : String) :
    (learnCandidate root sub).data.head? = some ':' := by
  unfold learnCandidate
  rw [show (":" ++ root ++ ":" ++ sub ++ "?") =
        ":" ++ (root ++ ":" ++ sub ++ "?") by simp [String.append_assoc]]
  rw [String.data_append]
  rfl

theorem learnCandidate_data_getLast (root sub : String) :
    (learnCandidate root sub).data.getLast? = some '?' := by
  unfold learnCandidate
  rw [String.data_append, List.getLast?_append]
  rfl

theorem pyStrip_learnCandidate (root sub : String) :
    pyStrip (learnCandidate root sub) = learnCandidate root sub := by
  have h1 : ∀ c, (learnCandidate root sub).data.head? = some c →
      c.isWhitespace = false := by
    intro c hc
    rw [learnCandidate_data_head] at hc
    cases hc
    decide
  have h2 : ∀ c, (learnCandidate root sub).data.getLast? = some c →
      c.isWhitespace = false := by
    intro c hc
    rw [learnCandidate_data_getLast] at hc
    cases hc
    decide
  unfold pyStrip
  rw [pyStripChars_eq_self h1 h2]

theorem learnCandidate_ne_empty (root sub : String) :
    learnCandidate root sub ≠ "" := by
  intro h
  have := learnCandidate_data_head root sub
  rw [h] at this
  simp at this

theorem load_all_commands_sorted (staticLines learnedLines : List String) :
    (load_all_commands staticLines learnedLines).Sorted (· ≤ ·) :=
  List.sorted_insertionSort (· ≤ ·) _

theorem load_all_commands_nodup (staticLines learnedLines : List String) :
    (load_all_commands staticLines learnedLines).Nodup :=
  (List.perm_insertionSort (· ≤ ·) _).nodup_iff.mpr (List.nodup_dedup _)

theorem mem_load_all_commands (staticLines learnedLines : List String)
    (c : String) :
    c ∈ load_all_commands staticLines learnedLines ↔
      c ∈ cleanLines staticLines ∨ c ∈ cleanLines learnedLines := by
  unfold load_all_commands pySortedSet
  rw [(List.perm_insertionSort (· ≤ ·) _).mem_iff, List.mem_dedup,
    List.mem_append]

theorem learnStep_inv (known : List String)
    (query : String → Except String String) (dryRun : Bool)
    (st : LearnState) (choice : String × String)
    (h1 : ∀ c ∈ st.queried, c ∉ known ∧ isSkipped c = false)
    (h2 : (st.discovered.map Prod.fst).Nodup)
    (h3 : ∀ p ∈ st.discovered, (∃ a b, p.1 = learnCandidate a b) ∧
        (dryRun = false → ∃ raw, query p.1 = Except.ok raw ∧
          pyStrip raw = p.2 ∧ p.2 ≠ "")) :
    (∀ c ∈ (learnStep known query dryRun st choice).queried,
        c ∉ known ∧ isSkipped c = false) ∧
    ((learnStep known query dryRun st choice).discovered.map Prod.fst).Nodup ∧
    (∀ p ∈ (learnStep known query dryRun st choice).discovered,
        (∃ a b, p.1 = learnCandidate a b) ∧
        (dryRun = false → ∃ raw, query p.1 = Except.ok raw ∧
          pyStrip raw = p.2 ∧ p.2 ≠ "")) := by
  simp only [learnStep]
  split
  · exact ⟨h1, h2, h3⟩
  · rename_i hguard
    push_neg at hguard
    obtain ⟨hk, hdisc, hskip⟩ := hguard
    have hskip' : isSkipped (learnCandidate choice.1 choice.2) = false :=
      Bool.not_eq_true _ ▸ eq_false_of_ne_true hskip
    split
    · rename_i hdry
      refine ⟨h1, ?_, ?_⟩
      · simp only [List.map_append, List.map_cons, List.map_nil]
        exact List.Nodup.append h2 (List.nodup_singleton _)
          (by simpa [List.disjoint_left] using
                fun x h => hdisc (List.mem_map_of_mem Prod.fst h))
      · intro p hp
        rcases List.mem_append.mp hp with hmem | hmem
        · exact h3 p hmem
        · rcases List.mem_singleton.mp hmem with rfl
          exact ⟨⟨choice.1, choice.2, rfl⟩, fun hfalse => by
            rw [hdry] at hfalse; cases hfalse⟩
    · rename_i hdry
      have hdry' : dryRun = false := eq_false_of_ne_true hdry
      split
      · rename_i e heq
        refine ⟨?_, h2, h3⟩
        intro c hc
        rcases List.mem_append.mp hc with hmem | hmem
        · exact h1 c hmem
        · rcases List.mem_singleton.mp hmem with rfl
          exact ⟨hk, hskip'⟩
      · rename_i raw heq
        split
        · rename_i hr
          refine ⟨?_, ?_, ?_⟩
          · intro c hc
            rcases List.mem_append.mp hc with hmem | hmem
            · exact h1 c hmem
            · rcases List.mem_singleton.mp hmem with rfl
              exact ⟨hk, hskip'⟩
          · simp only [List.map_append, List.map_cons, List.map_nil]
            exact List.Nodup.append h2 (List.nodup_singleton _)
              (by simpa [List.disjoint_left] using
                fun x h => hdisc (List.mem_map_of_mem Prod.fst h))
          · intro p hp
            rcases List.mem_append.mp hp with hmem | hmem
            · exact h3 p hmem
            · rcases List.mem_singleton.mp hmem with rfl
              exact ⟨⟨choice.1, choice.2, rfl⟩,
                fun _ => ⟨raw, heq, rfl, hr⟩⟩
        · rename_i hr
          refine ⟨?_, h2, h3⟩
          intro c hc
          rcases List.mem_append.mp hc with hmem | hmem
          · exact h1 c hmem
          · rcases List.mem_singleton.mp hmem with rfl
            exact ⟨hk, hskip'⟩

theorem learn_scope_inv (known : List String)
    (query : String → Except String String) (dryRun : Bool)
    (choices : List (String × String)) :
    (∀ c ∈ (learn_scope known query dryRun choices).queried,
        c ∉ known ∧ isSkipped c = false) ∧
    ((learn_scope known query dryRun choices).discovered.map Prod.fst).Nodup ∧
    (∀ p ∈ (learn_scope known query dryRun choices).discovered,
        (∃ a b, p.1 = learnCandidate a b) ∧
        (dryRun = false → ∃ raw, query p.1 = Except.ok raw ∧
          pyStrip raw = p.2 ∧ p.2 ≠ "")) := by
  refine foldlInv (learnStep known query dryRun)
    (fun st =>
      (∀ c ∈ st.queried, c ∉ known ∧ isSkipped c = false) ∧
      ((st.discovered.map Prod.fst).Nodup) ∧
      (∀ p ∈ st.discovered, (∃ a b, p.1 = learnCandidate a b) ∧
        (dryRun = false → ∃ raw, query p.1 = Except.ok raw ∧
          pyStrip raw = p.2 ∧ p.2 ≠ "")))
    ?_ choices ⟨[], []⟩ (by simp)
  intro t a ht
  exact learnStep_inv known query dryRun t a ht.1 ht.2.1 ht.2.2

theorem smartTrialStep_inv (known : List String)
    (query : String → Except String String) (dryRun : Bool)
    (path : List String) (st : SmartState) (suffix : String)
    (h1 : ∀ c ∈ st.queried, c ∉ known ∧ isSkipped c = false)
    (h2 : ∀ c ∈ st.discovered.map Prod.fst, c ∈ st.seen)
    (h3 : (st.discovered.map Prod.fst).Nodup) :
    (∀ c ∈ (smartTrialStep known query dryRun path st suffix).queried,
        c ∉ known ∧ isSkipped c = false) ∧
    (∀ c ∈ (smartTrialStep known query dryRun path st suffix).discovered.map
        Prod.fst,
      c ∈ (smartTrialStep known query dryRun path st suffix).seen) ∧
    ((smartTrialStep known query dryRun path st suffix).discovered.map
        Prod.fst).Nodup := by
  simp only [smartTrialStep]
  split
  · exact ⟨h1, h2, h3⟩
  · rename_i hguard
    push_neg at hguard
    obtain ⟨hk, hseen, hskip⟩ := hguard
    have hskip' : isSkipped (smartTrial path suffix) = false :=
      Bool.not_eq_true _ ▸ eq_false_of_ne_true hskip
    have hnotfst : smartTrial path suffix ∉ st.discovered.map Prod.fst :=
      fun h => hseen (h2 _ h)
    have hseen' : ∀ c ∈ st.discovered.map Prod.fst,
        c ∈ st.seen ++ [smartTrial path suffix] :=
      fun c hc => List.mem_append_left _ (h2 c hc)
    have hnodup' :
        ((st.discovered ++ [(smartTrial path suffix, dryMark)]).map
          Prod.fst).Nodup := by
      simp only [List.map_append, List.map_cons, List.map_nil]
      exact List.Nodup.append h3 (List.nodup_singleton _)
        (by simpa [List.disjoint_left] using
          fun x h => hnotfst (List.mem_map_of_mem Prod.fst h))
    split
    · refine ⟨h1, ?_, hnodup'⟩
      intro c hc
      simp only [List.map_append, List.map_cons, List.map_nil,
        List.mem_append, List.mem_singleton] at hc
      rcases hc with hc | hc
      · exact List.mem_append_left _ (h2 c hc)
      · exact hc ▸ List.mem_append_right _ (List.mem_singleton_self _)
    · split
      · rename_i e heq
        refine ⟨?_, hseen', h3⟩
        intro c hc
        rcases List.mem_append.mp hc with hmem | hmem
        · exact h1 c hmem
        · rcases List.mem_singleton.mp hmem with rfl
          exact ⟨hk, hskip'⟩
      · rename_i raw heq
        split
        · refine ⟨?_, ?_, ?_⟩
          · intro c hc
            rcases List.mem_append.mp hc with hmem | hmem
            · exact h1 c hmem
            · rcases List.mem_singleton.mp hmem with rfl
              exact ⟨hk, hskip'⟩
          · intro c hc
            simp only [List.map_append, List.map_cons, List.map_nil,
              List.mem_append, List.mem_singleton] at hc
            rcases hc with hc | hc
            · exact List.mem_append_left _ (h2 c hc)
            · exact hc ▸ List.mem_append_right _ (List.mem_singleton_self _)
          · simp only [List.map_append, List.map_cons, List.map_nil]
            exact List.Nodup.append h3 (List.nodup_singleton _)
              (by simpa [List.disjoint_left] using
                fun x h => hnotfst (List.mem_map_of_mem Prod.fst h))
        · refine ⟨?_, hseen', h3⟩
          intro c hc
          rcases List.mem_append.mp hc with hmem | hmem
          · exact h1 c hmem
          · rcases List.mem_singleton.mp hmem with rfl
            exact ⟨hk, hskip'⟩

theorem smartPop_inv (known : List String)
    (query : String → Except String String) (dryRun : Bool) (st : SmartState)
    (h1 : ∀ c ∈ st.queried, c ∉ known ∧ isSkipped c = false)
    (h2 : ∀ c ∈ st.discovered.map Prod.fst, c ∈ st.seen)
    (h3 : (st.discovered.map Prod.fst).Nodup) :
    (∀ c ∈ (smartPop known query dryRun st).queried,
        c ∉ known ∧ isSkipped c = false) ∧
    (∀ c ∈ (smartPop known query dryRun st).discovered.map Prod.fst,
        c ∈ (smartPop known query dryRun st).seen) ∧
    ((smartPop known query dryRun st).discovered.map Prod.fst).Nodup := by
  unfold smartPop
  split
  · exact ⟨h1, h2, h3⟩
  · rename_i path rest heq
    refine foldlInv (smartTrialStep known query dryRun path)
      (fun t =>
        (∀ c ∈ t.queried, c ∉ known ∧ isSkipped c = false) ∧
        (∀ c ∈ t.discovered.map Prod.fst, c ∈ t.seen) ∧
        (t.discovered.map Prod.fst).Nodup)
      ?_ guessSuffixes _ ⟨h1, h2, h3⟩
    intro t a ht
    exact smartTrialStep_inv known query dryRun path t a ht.1 ht.2.1 ht.2.2

theorem smart_learn_loop_inv (known : List String)
    (query : String → Except String String) (dryRun : Bool) :
    ∀ (fuel : Nat) (st : SmartState),
      ((∀ c ∈ st.queried, c ∉ known ∧ isSkipped c = false) ∧
       (∀ c ∈ st.discovered.map Prod.fst, c ∈ st.seen) ∧
       (st.discovered.map Prod.fst).Nodup) →
      (∀ c ∈ (smart_learn_loop known query dryRun fuel st).queried,
          c ∉ known ∧ isSkipped c = false) ∧
      (∀ c ∈ (smart_learn_loop known query dryRun fuel st).discovered.map
          Prod.fst,
        c ∈ (smart_learn_loop known query dryRun fuel st).seen) ∧
      ((smart_learn_loop known query dryRun fuel st).discovered.map
          Prod.fst).Nodup := by
  intro fuel
  induction fuel with
  | zero => intro st h; exact h
  | succ n ih =>
    intro st h
    rw [smart_learn_loop]
    split
    · exact h
    · exact ih _ (smartPop_inv known query dryRun st h.1 h.2.1 h.2.2)

theorem smart_learn_scope_inv (known : List String)
    (query : String → Except String String) (dryRun : Bool) (fuel : Nat)
    (pfxParts : List String) :
    (∀ c ∈ (smart_learn_scope known query dryRun fuel pfxParts).queried,
        c ∉ known ∧ isSkipped c = false) ∧
    ((smart_learn_scope known query dryRun fuel pfxParts).discovered.map
        Prod.fst).Nodup := by
  have h := smart_learn_loop_inv known query dryRun fuel ⟨[], [], [], [pfxParts]⟩
    (by simp)
  exact ⟨h.1, h.2.2⟩

theorem focusDeepStep_inv (known : List String)
    (query : String → Except String String) (saveCsv : Bool)
    (cmd r : String) (st : FocusState) (suffix2 : String)
    (h1 : ∀ c ∈ st.queriedTop, c ∉ known ∧ isSkipped c = false)
    (h2 : ∀ c ∈ st.discovered.map Prod.fst, c ∈ st.seen)
    (h3 : (st.discovered.map Prod.fst).Nodup)
    (h4 : st.discovered = [] → st.cmdFileAppends = []) :
    (∀ c ∈ (focusDeepStep query saveCsv cmd r st suffix2).queriedTop,
        c ∉ known ∧ isSkipped c = false) ∧
    (∀ c ∈ (focusDeepStep query saveCsv cmd r st suffix2).discovered.map
        Prod.fst,
      c ∈ (focusDeepStep query saveCsv cmd r st suffix2).seen) ∧
    ((focusDeepStep query saveCsv cmd r st suffix2).discovered.map
        Prod.fst).Nodup ∧
    ((focusDeepStep query saveCsv cmd r st suffix2).discovered = [] →
      (focusDeepStep query saveCsv cmd r st suffix2).cmdFileAppends = []) := by
  simp only [focusDeepStep]
  split
  · exact ⟨h1, h2, h3, h4⟩
  · rename_i hseen
    have hnotfst : deepCandidate cmd r suffix2 ∉ st.discovered.map Prod.fst :=
      fun h => hseen (h2 _ h)
    split
    · rename_i e heq
      refine ⟨h1, ?_, h3, h4⟩
      intro c hc
      exact List.mem_append_left _ (h2 c hc)
    · rename_i raw2 heq
      split
      · refine ⟨h1, ?_, ?_, ?_⟩
        · intro c hc
          simp only [List.map_append, List.map_cons, List.map_nil,
            List.mem_append, List.mem_singleton] at hc
          rcases hc with hc | hc
          · exact List.mem_append_left _ (h2 c hc)
          · exact hc ▸ List.mem_append_right _ (List.mem_singleton_self _)
        · simp only [List.map_append, List.map_cons, List.map_nil]
          exact List.Nodup.append h3 (List.nodup_singleton _)
            (by simpa [List.disjoint_left] using
              fun x h => hnotfst (List.mem_map_of_mem Prod.fst h))
        · intro h
          simp at h
      · refine ⟨h1, ?_, h3, h4⟩
        intro c hc
        exact List.mem_append_left _ (h2 c hc)

theorem focusStep_inv (known : List String)
    (query : String → Except String String) (dryRun saveCsv : Bool)
    (depth : Nat) (pfx : String) (st : FocusState) (suffix : String)
    (h1 : ∀ c ∈ st.queriedTop, c ∉ known ∧ isSkipped c = false)
    (h2 : ∀ c ∈ st.discovered.map Prod.fst, c ∈ st.seen)
    (h3 : (st.discovered.map Prod.fst).Nodup)
    (h4 : st.discovered = [] → st.cmdFileAppends = []) :
    (∀ c ∈ (focusStep known query dryRun saveCsv depth pfx st suffix).queriedTop,
        c ∉ known ∧ isSkipped c = false) ∧
    (∀ c ∈ (focusStep known query dryRun saveCsv depth pfx st
        suffix).discovered.map Prod.fst,
      c ∈ (focusStep known query dryRun saveCsv depth pfx st suffix).seen) ∧
    ((focusStep known query dryRun saveCsv depth pfx st suffix).discovered.map
        Prod.fst).Nodup ∧
    ((focusStep known query dryRun saveCsv depth pfx st suffix).discovered =
        [] →
      (focusStep known query dryRun saveCsv depth pfx st
          suffix).cmdFileAppends = []) := by
  simp only [focusStep]
  split
  · exact ⟨h1, h2, h3, h4⟩
  · rename_i hguard
    push_neg at hguard
    obtain ⟨hk, hseen, hskip⟩ := hguard
    have hskip' : isSkipped (focusCandidate pfx suffix) = false :=
      Bool.not_eq_true _ ▸ eq_false_of_ne_true hskip
    have hnotfst : focusCandidate pfx suffix ∉ st.discovered.map Prod.fst :=
      fun h => hseen (h2 _ h)
    have hmemseen : ∀ c ∈ st.discovered.map Prod.fst,
        c ∈ st.seen ++ [focusCandidate pfx suffix] :=
      fun c hc => List.mem_append_left _ (h2 c hc)
    have hnodup' :
        ∀ x : String,
          ((st.discovered ++ [(focusCandidate pfx suffix, x)]).map
            Prod.fst).Nodup := by
      intro x
      simp only [List.map_append, List.map_cons, List.map_nil]
      exact List.Nodup.append h3 (List.nodup_singleton _)
        (by simpa [List.disjoint_left] using
          fun y h => hnotfst (List.mem_map_of_mem Prod.fst h))
    have hmem' : ∀ x : String,
        ∀ c ∈ (st.discovered ++ [(focusCandidate pfx suffix, x)]).map Prod.fst,
          c ∈ st.seen ++ [focusCandidate pfx suffix] := by
      intro x c hc
      simp only [List.map_append, List.map_cons, List.map_nil,
        List.mem_append, List.mem_singleton] at hc
      rcases hc with hc | hc
      · exact List.mem_append_left _ (h2 c hc)
      · exact hc ▸ List.mem_append_right _ (List.mem_singleton_self _)
    split
    · exact ⟨h1, hmem' dryMark, hnodup' dryMark, fun h => by simp at h⟩
    · split
      · rename_i e heq
        refine ⟨?_, hmemseen, h3, h4⟩
        intro c hc
        rcases List.mem_append.mp hc with hmem | hmem
        · exact h1 c hmem
        · rcases List.mem_singleton.mp hmem with rfl
          exact ⟨hk, hskip'⟩
      · rename_i raw heq
        have h1' : ∀ c ∈ st.queriedTop ++ [focusCandidate pfx suffix],
            c ∉ known ∧ isSkipped c = false := by
          intro c hc
          rcases List.mem_append.mp hc with hmem | hmem
          · exact h1 c hmem
          · rcases List.mem_singleton.mp hmem with rfl
            exact ⟨hk, hskip'⟩
        split
        · rename_i hr
          split
          · refine foldlInv (focusDeepStep query saveCsv
              (focusCandidate pfx suffix) (pyStrip raw))
              (fun t =>
                (∀ c ∈ t.queriedTop, c ∉ known ∧ isSkipped c = false) ∧
                (∀ c ∈ t.discovered.map Prod.fst, c ∈ t.seen) ∧
                (t.discovered.map Prod.fst).Nodup ∧
                (t.discovered = [] → t.cmdFileAppends = []))
              ?_ deepSuffixes _
              ⟨h1', hmem' (pyStrip raw), hnodup' (pyStrip raw),
                fun h => by simp at h⟩
            intro t a ht
            exact focusDeepStep_inv known query saveCsv _ _ t a
              ht.1 ht.2.1 ht.2.2.1 ht.2.2.2
          · exact ⟨h1', hmem' (pyStrip raw), hnodup' (pyStrip raw),
              fun h => by simp at h⟩
        · exact ⟨h1', hmemseen, h3, h4⟩

theorem focus_probe_inv (known : List String)
    (query : String → Except String String) (dryRun saveCsv : Bool)
    (depth : Nat) (pfx : String) (wordlist : List String) :
    (∀ c ∈ (focus_probe known query dryRun saveCsv depth pfx
        wordlist).queriedTop,
      c ∉ known ∧ isSkipped c = false) ∧
    ((focus_probe known query dryRun saveCsv depth pfx
        wordlist).discovered.map Prod.fst).Nodup ∧
    ((focus_probe known query dryRun saveCsv depth pfx wordlist).discovered =
        [] →
      (focus_probe known query dryRun saveCsv depth pfx
          wordlist).cmdFileAppends = []) := by
  have h := foldlInv (focusStep known query dryRun saveCsv depth pfx)
    (fun t =>
      (∀ c ∈ t.queriedTop, c ∉ known ∧ isSkipped c = false) ∧
      (∀ c ∈ t.discovered.map Prod.fst, c ∈ t.seen) ∧
      (t.discovered.map Prod.fst).Nodup ∧
      (t.discovered = [] → t.cmdFileAppends = []))
    ?_ wordlist ⟨[], [], [], [], [], []⟩ (by simp)
  · exact ⟨h.1, h.2.2.1, h.2.2.2⟩
  · intro t a ht
    exact focusStep_inv known query dryRun saveCsv depth pfx t a
      ht.1 ht.2.1 ht.2.2.1 ht.2.2.2

theorem startsWithList_append_self :
    ∀ (p s : List Char), startsWithList p (p ++ s) = true := by
  intro p
  induction p with
  | nil => intro s; rfl
  | cons a as ih => intro s; simp [startsWithList, ih]

theorem fuzzCandidate_not_skipped :
    ∀ root ∈ fuzzRoots, ∀ sub ∈ fuzzSubs,
      isSkipped (fuzzCandidate root sub) = false := by decide

theorem test_all_queried_not_skipped (cmds : List String)
    (query : String → Except String String) (dryRun : Bool) (c : String)
    (hc : c ∈ (test_all cmds query dryRun).queried) : isSkipped c = false := by
  rw [test_all_eq] at hc
  simp only [testQueriedSpec] at hc
  split at hc
  · simp at hc
  · simpa using List.of_mem_filter hc

/-- Claim C1 (amended): in doom.py's `test` mode the result list is exactly
one `(command, result)` pair per stripped command not containing a
skip-pattern substring, in order, and skip-pattern commands contribute no
pair; in doom2.py's `test` mode every command of the list — including
skip-pattern commands — contributes exactly one pair. -/
theorem claim_C1 (cmds : List String) (query : String → Except String String)
    (dryRun : Bool) :
    (test_all cmds query dryRun).results = testResultsSpec cmds query dryRun ∧
    (doom2_test_all cmds query).results =
      cmds.map fun c => (c, classifyResponse (query c)) := by
  constructor
  · rw [test_all_eq]
  · rw [doom2_test_all_eq]

/-- Claim C1 counterexample: doom2.py's `test_all` (cited by the claim) has
no skip-pattern check, so a known list consisting of the skip-pattern
command `:WAV:DATA?` produces one result entry where the claim requires
none. -/
theorem claim_C1_counterexample :
    isSkipped ":WAV:DATA?" = true ∧
    (doom2_test_all [":WAV:DATA?"] fun _ => Except.ok "data").results =
      [(":WAV:DATA?", "✅ data")] := by decide

/-- Claim C2 (amended): in doom.py the `test` and `group` loops, the `learn`
and `smart-learn` attempt loops, the top-level `focus` loop, the
`run_waveform_test` use of the `query` primitive, and every `fuzz` candidate
never pass a command containing a skip-pattern substring to the transport's
`query` primitive.  (doom2.py's `test` mode, doom.py's `send` mode and the
depth>1 `focus` follow-ups perform no such check.) -/
theorem claim_C2 (c : String) (cmds : List String)
    (query : String → Except String String) (dryRun : Bool) (grp : String)
    (known : List String) (choices : List (String × String)) (fuel : Nat)
    (pfxParts : List String) (saveCsv : Bool) (depth : Nat) (pfx : String)
    (wordlist : List String) :
    (c ∈ (test_all cmds query dryRun).queried ∨
      c ∈ (test_group grp cmds query dryRun).queried ∨
      c ∈ (learn_scope known query dryRun choices).queried ∨
      c ∈ (smart_learn_scope known query dryRun fuel pfxParts).queried ∨
      c ∈ (focus_probe known query dryRun saveCsv depth pfx
        wordlist).queriedTop ∨
      c ∈ run_waveform_test_queries ∨
      (∃ root ∈ fuzzRoots, ∃ sub ∈ fuzzSubs, c = fuzzCandidate root sub)) →
    isSkipped c = false := by
  intro h
  rcases h with h | h | h | h | h | h | h
  · exact test_all_queried_not_skipped cmds query dryRun c h
  · exact test_all_queried_not_skipped _ query dryRun c h
  · exact ((learn_scope_inv known query dryRun choices).1 c h).2
  · exact ((smart_learn_scope_inv known query dryRun fuel pfxParts).1 c h).2
  · exact ((focus_probe_inv known query dryRun saveCsv depth pfx
      wordlist).1 c h).2
  · rcases List.mem_singleton.mp h with rfl
    decide
  · obtain ⟨root, hroot, sub, hsub, rfl⟩ := h
    exact fuzzCandidate_not_skipped root hroot sub hsub

theorem claim_C2_witness : isSkipped ":CHAN1:SCAL?" = false :=
  claim_C2 ":CHAN1:SCAL?" [":CHAN1:SCAL?"] (fun _ => Except.ok "1") false "X"
    [] [] 0 [] false 0 "" [] (Or.inl (by decide))

/-- Claim C2 counterexample: doom2.py's `test_all` (cited by the claim)
passes the skip-pattern command `:WAV:DATA?` to the transport's `query`
primitive. -/
theorem claim_C2_counterexample :
    isSkipped ":WAV:DATA?" = true ∧
    ":WAV:DATA?" ∈ (doom2_test_all [":CHAN1:SCAL?", ":WAV:DATA?"]
      fun _ => Except.ok "1").queried := by decide

/-- Claim C3: a query whose response strips to the empty string is
classified as the empty marker (in doom.py and in scpi_doom_tester.py), and
a result is classified as a success (marked `✅`) exactly when the stripped
response text is non-empty. -/
theorem claim_C3 (raw : String) :
    (pyStrip raw = "" →
      classifyResponse (Except.ok raw) = "⚠️ Empty" ∧
      classifyTester (Except.ok raw) = "⚠️ Empty response") ∧
    (startsWithList "✅".data (classifyResponse (Except.ok raw)).data = true ↔
      pyStrip raw ≠ "") := by
  constructor
  · intro h
    constructor
    · simp [classifyResponse, h]
    · simp [classifyTester, h]
  · constructor
    · intro h hempty
      rw [show classifyResponse (Except.ok raw) = "⚠️ Empty" by
        simp [classifyResponse, hempty]] at h
      revert h
      decide
    · intro h
      rw [show classifyResponse (Except.ok raw) = "✅ " ++ pyStrip raw by
        simp [classifyResponse, h]]
      rw [show ("✅ " ++ pyStrip raw).data =
        "✅".data ++ (' ' :: (pyStrip raw).data) from rfl]
      exact startsWithList_append_self _ _

theorem claim_C3_witness :
    classifyResponse (Except.ok "  ") = "⚠️ Empty" ∧
    classifyTester (Except.ok "  ") = "⚠️ Empty response" ∧
    startsWithList "✅".data (classifyResponse (Except.ok " 1.0 ")).data =
      true :=
  ⟨((claim_C3 "  ").1 (by decide)).1, ((claim_C3 "  ").1 (by decide)).2,
   (claim_C3 " 1.0 ").2.mpr (by decide)⟩

/-- Claim C4 (amended): in the `learn` and `smart-learn` modes and in the
top-level `focus` loop a candidate equal to an already-known command is
never queried, and in all three discovery modes the discovered list of a
single run contains no duplicate command strings.  (The depth>1 `focus`
follow-up candidates are checked only against the run's `seen` set, not
against the known commands.) -/
theorem claim_C4 (known : List String) (query : String → Except String String)
    (dryRun : Bool) (choices : List (String × String)) (fuel : Nat)
    (pfxParts : List String) (saveCsv : Bool) (depth : Nat) (pfx : String)
    (wordlist : List String) :
    (∀ c ∈ (learn_scope known query dryRun choices).queried, c ∉ known) ∧
    ((learn_scope known query dryRun choices).discovered.map Prod.fst).Nodup ∧
    (∀ c ∈ (smart_learn_scope known query dryRun fuel pfxParts).queried,
      c ∉ known) ∧
    ((smart_learn_scope known query dryRun fuel pfxParts).discovered.map
      Prod.fst).Nodup ∧
    (∀ c ∈ (focus_probe known query dryRun saveCsv depth pfx
        wordlist).queriedTop,
      c ∉ known) ∧
    ((focus_probe known query dryRun saveCsv depth pfx wordlist).discovered.map
      Prod.fst).Nodup := by
  refine ⟨fun c hc => ((learn_scope_inv known query dryRun choices).1 c hc).1,
    (learn_scope_inv known query dryRun choices).2.1,
    fun c hc =>
      ((smart_learn_scope_inv known query dryRun fuel pfxParts).1 c hc).1,
    (smart_learn_scope_inv known query dryRun fuel pfxParts).2,
    fun c hc =>
      ((focus_probe_inv known query dryRun saveCsv depth pfx wordlist).1
        c hc).1,
    (focus_probe_inv known query dryRun saveCsv depth pfx wordlist).2.1⟩

theorem claim_C4_witness : ":SYSTem:SCALe?" ∉ [":K?"] :=
  (claim_C4 [":K?"] (fun _ => Except.ok "1") false [("SYSTem", "SCALe")] 0 []
    false 0 "" []).1 ":SYSTem:SCALe?" (by decide)

/-- Claim C4 counterexample: the depth>1 `focus` follow-up consults only the
`seen` set, so with known list `[":A:B:C:?"]`, wordlist `["B?"]`, target
path `:A:` and a transport answering `C` on `:A:B?`, the already-known
command `:A:B:C:?` is queried. -/
theorem claim_C4_counterexample :
    ":A:B:C:?" ∈ [":A:B:C:?"] ∧
    ":A:B:C:?" ∈ (focus_probe [":A:B:C:?"]
      (fun c => if c = ":A:B?" then Except.ok "C" else Except.ok "")
      false false 2 ":A:" ["B?"]).queriedDeep := by decide

/-- Claim C5 (amended): in doom.py's `test` (and `group`) loop an exception
from the transport is caught, an error result string `❌ <message>` is
appended for that command, and the batch continues — the result count equals
the number of non-skipped commands no matter which queries fail; in the
`learn` loop (and likewise `smart-learn`/`focus`) the exception is caught
and the loop continues, but no result is recorded for the failing command —
a command whose query raises never appears in the discovered list. -/
theorem claim_C5 (cmds : List String) (query : String → Except String String)
    (cmd e : String) (known : List String)
    (choices : List (String × String)) :
    (cmd ∈ cmds.map pyStrip → isSkipped cmd = false →
      query cmd = Except.error e →
      (cmd, "❌ " ++ e) ∈ (test_all cmds query false).results) ∧
    (test_all cmds query false).results.length =
      ((cmds.map pyStrip).filter fun c => !isSkipped c).length ∧
    (query cmd = Except.error e →
      cmd ∉ (learn_scope known query false choices).discovered.map
        Prod.fst) := by
  refine ⟨?_, ?_, ?_⟩
  · intro hmem hskip herr
    rw [test_all_eq]
    simp only [testResultsSpec]
    have hmemf : cmd ∈ (cmds.map pyStrip).filter fun c => !isSkipped c :=
      List.mem_filter.mpr ⟨hmem, by simp [hskip]⟩
    have := List.mem_map_of_mem
      (fun c => (c, if false = true then dryMark
        else classifyResponse (query c))) hmemf
    simpa [classifyResponse, herr] using this
  · rw [test_all_eq]
    simp [testResultsSpec]
  · intro herr hmem
    obtain ⟨p, hp, hfst⟩ := List.mem_map.mp hmem
    obtain ⟨raw, hok, -⟩ :=
      ((learn_scope_inv known query false choices).2.2 p hp).2 rfl
    rw [hfst, herr] at hok
    cases hok

theorem claim_C5_witness :
    (":CHAN1:SCAL?", "❌ boom") ∈
      (test_all [":CHAN1:SCAL?"] (fun _ => Except.error "boom")
        false).results ∧
    ":SYSTem:SCALe?" ∉ (learn_scope [] (fun _ => Except.error "boom") false
      [("SYSTem", "SCALe")]).discovered.map Prod.fst :=
  ⟨(claim_C5 [":CHAN1:SCAL?"] (fun _ => Except.error "boom") ":CHAN1:SCAL?"
      "boom" [] []).1 (by decide) (by decide) rfl,
   (claim_C5 [] (fun _ => Except.error "boom") ":SYSTem:SCALe?" "boom" []
      [("SYSTem", "SCALe")]).2.2 rfl⟩

/-- Claim C5 counterexample: in doom.py's `learn` mode a query that raises
is swallowed by `except Exception: continue` — the candidate `:SYSTem:SCALe?`
is queried (it is in the trace) yet the run records no result at all, where
the claim requires an error result string carrying the message. -/
theorem claim_C5_counterexample :
    (learn_scope [] (fun _ => Except.error "boom") false
      [("SYSTem", "SCALe")]).queried = [":SYSTem:SCALe?"] ∧
    (learn_scope [] (fun _ => Except.error "boom") false
      [("SYSTem", "SCALe")]).discovered = [] := by decide

/-- Claim C6: with known list `[":CHAN1:SCAL?"]` and a stub transport
answering `1.0`, doom.py's `test` mode yields the single result
`(":CHAN1:SCAL?", "✅ 1.0")` and writes exactly one log file containing
that entry. -/
theorem claim_C6 :
    (test_all_run [":CHAN1:SCAL?"]
      (fun c => if c = ":CHAN1:SCAL?" then Except.ok "1.0"
        else Except.error "unexpected") false none).1.results =
      [(":CHAN1:SCAL?", "✅ 1.0")] ∧
    (test_all_run [":CHAN1:SCAL?"]
      (fun c => if c = ":CHAN1:SCAL?" then Except.ok "1.0"
        else Except.error "unexpected") false none).2 =
      [[padTo 40 ":CHAN1:SCAL?" ++ " → " ++ "✅ 1.0"]] ∧
    (test_all_run [":CHAN1:SCAL?"]
      (fun c => if c = ":CHAN1:SCAL?" then Except.ok "1.0"
        else Except.error "unexpected") false none).2.length = 1 := by decide

/-- Claim C7 (amended): candidates built by the `learn` generator, the
`smart-learn` generator, the default (`POWER_QUALITY_GUESSES`) `focus`
wordlist and the depth>1 `focus` follow-ups always end with the character
`?`; a user-supplied `--wordlist` entry is used verbatim, so a
wordlist-driven `focus` candidate ends with `?` only when the wordlist entry
does. -/
theorem claim_C7 (root sub : String) (path : List String)
    (sfx pfx w cmd r s2 : String) :
    endsWithQM (learnCandidate root sub) = true ∧
    (sfx ∈ guessSuffixes → endsWithQM (smartTrial path sfx) = true) ∧
    (w ∈ POWER_QUALITY_GUESSES → endsWithQM (focusCandidate pfx w) = true) ∧
    (s2 ∈ deepSuffixes → endsWithQM (deepCandidate cmd r s2) = true) := by
  refine ⟨?_, ?_, ?_, ?_⟩
  · exact endsWithQM_append _ "?" (by decide)
  · intro h
    have hq : endsWithQM sfx = true :=
      List.all_eq_true.mp
        (by decide : guessSuffixes.all endsWithQM = true) sfx h
    exact endsWithQM_pyCollapse _ (endsWithQM_append _ _ hq)
  · intro h
    have hq : endsWithQM w = true :=
      List.all_eq_true.mp
        (by decide : POWER_QUALITY_GUESSES.all endsWithQM = true) w h
    exact endsWithQM_append _ _ hq
  · intro h
    have hq : endsWithQM s2 = true :=
      List.all_eq_true.mp
        (by decide : deepSuffixes.all endsWithQM = true) s2 h
    exact endsWithQM_pyCollapse _ (endsWithQM_append _ _ hq)

theorem claim_C7_witness :
    endsWithQM (learnCandidate "SYSTem" "SCALe") = true ∧
    endsWithQM (smartTrial ["POWER"] "MODE?") = true ∧
    endsWithQM (focusCandidate ":POWer:QUALity:" "VRMS?") = true ∧
    endsWithQM (deepCandidate ":A:B?" "C" "VALue?") = true :=
  ⟨(claim_C7 "SYSTem" "SCALe" [] "" "" "" "" "" "").1,
   (claim_C7 "" "" ["POWER"] "MODE?" "" "" "" "" "").2.1 (by decide),
   (claim_C7 "" "" [] "" ":POWer:QUALity:" "VRMS?" "" "" "").2.2.1
     (by decide),
   (claim_C7 "" "" [] "" "" "" ":A:B?" "C" "VALue?").2.2.2 (by decide)⟩

/-- Claim C7 counterexample: `load_wordlist` and the `focus` loop never
append a `?`, so the wordlist entry `VRMS` produces the queried candidate
`:POWer:QUALity:VRMS`, which does not end with `?`. -/
theorem claim_C7_counterexample :
    (focus_probe [] (fun _ => Except.ok "") false false 1 ":POWer:QUALity:"
      ["VRMS"]).queriedTop = [":POWer:QUALity:VRMS"] ∧
    endsWithQM ":POWer:QUALity:VRMS" = false := by decide

theorem learnRunStore_fst (store : Store)
    (query : String → Except String String)
    (choices : List (String × String)) :
    (learnRunStore store query choices).1 =
      learn_scope (load_all_commands store.staticLines store.latestGeneric)
        query false choices := by
  simp only [learnRunStore]
  split <;> rfl

theorem learnRunStore_snd_of_empty (store : Store)
    (query : String → Except String String)
    (choices : List (String × String))
    (h : (learn_scope (load_all_commands store.staticLines store.latestGeneric)
        query false choices).discovered = []) :
    (learnRunStore store query choices).2 = store := by
  simp only [learnRunStore]
  rw [show learnWrites (learn_scope
      (load_all_commands store.staticLines store.latestGeneric)
      query false choices).discovered = none by simp [learnWrites, h]]

theorem learnRunStore_snd_of_ne (store : Store)
    (query : String → Except String String)
    (choices : List (String × String))
    (h : (learn_scope (load_all_commands store.staticLines store.latestGeneric)
        query false choices).discovered ≠ []) :
    (learnRunStore store query choices).2 =
      { store with
        latestTag :=
          (learn_scope (load_all_commands store.staticLines store.latestGeneric)
            query false choices).discovered.map fun p => pyStrip p.1 } := by
  simp only [learnRunStore]
  rw [show learnWrites (learn_scope
      (load_all_commands store.staticLines store.latestGeneric)
      query false choices).discovered =
    some ((learn_scope
        (load_all_commands store.staticLines store.latestGeneric)
        query false choices).discovered.map fun p => pyStrip p.1) by
    simp [learnWrites, h]]

/-- Claim C8 (amended): learned files are read at process start —
`learn_scope` merges the generic learned file into its known set, and a
subsequent `test` run on the same instrument merges the per-instrument
latest file — but at process end the per-instrument latest file is
overwritten (mode `"w"`) with exactly this run's discoveries, not appended
to: after a run that discovered something the latest file holds precisely
the run's discovered commands, each of which a subsequent `test` run finds
in its known set; a run that discovered nothing leaves every file
unchanged. -/
theorem claim_C8 (store : Store) (query : String → Except String String)
    (choices : List (String × String)) :
    ((learnRunStore store query choices).1.discovered ≠ [] →
      (learnRunStore store query choices).2.latestTag =
        (learnRunStore store query choices).1.discovered.map
          fun p => pyStrip p.1) ∧
    ((learnRunStore store query choices).1.discovered = [] →
      (learnRunStore store query choices).2 = store) ∧
    (∀ p ∈ (learnRunStore store query choices).1.discovered,
      pyStrip p.1 ∈ testRunKnown (learnRunStore store query choices).2) ∧
    (∀ c, c ∈ testRunKnown store ↔
      c ∈ cleanLines store.staticLines ∨ c ∈ cleanLines store.latestTag) := by
  refine ⟨?_, ?_, ?_, ?_⟩
  · intro hne
    rw [learnRunStore_fst] at hne ⊢
    rw [learnRunStore_snd_of_ne store query choices hne]
  · intro hemp
    rw [learnRunStore_fst] at hemp
    exact learnRunStore_snd_of_empty store query choices hemp
  · intro p hp
    rw [learnRunStore_fst] at hp
    have hne := List.ne_nil_of_mem hp
    rw [learnRunStore_snd_of_ne store query choices hne]
    obtain ⟨⟨a, b, hab⟩, -⟩ :=
      (learn_scope_inv (load_all_commands store.staticLines
        store.latestGeneric) query false choices).2.2 p hp
    have hid : pyStrip p.1 = p.1 := by
      rw [hab]; exact pyStrip_learnCandidate a b
    have hnemp : pyStrip p.1 ≠ "" := by
      rw [hid, hab]; exact learnCandidate_ne_empty a b
    unfold testRunKnown
    rw [mem_load_all_commands]
    right
    dsimp only
    unfold cleanLines
    refine List.mem_filter.mpr ⟨?_, by simpa using hnemp⟩
    refine List.mem_map.mpr ⟨pyStrip p.1, ?_, by simp only [hid]⟩
    exact List.mem_map.mpr ⟨p, hp, rfl⟩
  · intro c
    exact mem_load_all_commands _ _ c

theorem claim_C8_witness :
    (learnRunStore ⟨[":A?"], [], [":OLD:CMD?"]⟩ (fun _ => Except.ok "42")
      [("SYSTem", "SCALe")]).2.latestTag =
      (learnRunStore ⟨[":A?"], [], [":OLD:CMD?"]⟩ (fun _ => Except.ok "42")
        [("SYSTem", "SCALe")]).1.discovered.map (fun p => pyStrip p.1) ∧
    pyStrip ":SYSTem:SCALe?" ∈
      testRunKnown (learnRunStore ⟨[":A?"], [], [":OLD:CMD?"]⟩
        (fun _ => Except.ok "42") [("SYSTem", "SCALe")]).2 :=
  ⟨(claim_C8 ⟨[":A?"], [], [":OLD:CMD?"]⟩ (fun _ => Except.ok "42")
      [("SYSTem", "SCALe")]).1 (by decide),
   (claim_C8 ⟨[":A?"], [], [":OLD:CMD?"]⟩ (fun _ => Except.ok "42")
      [("SYSTem", "SCALe")]).2.2.1 (":SYSTem:SCALe?", "42") (by decide)⟩

/-- Claim C8 counterexample: the latest file is opened with mode `"w"`, so
with previous per-instrument contents `[":OLD:CMD?"]` and one new discovery
`:SYSTem:SCALe?` the file afterwards holds only `[":SYSTem:SCALe?"]` — not
its previous contents plus the discovery. -/
theorem claim_C8_counterexample :
    (learnRunStore ⟨[":A?"], [], [":OLD:CMD?"]⟩ (fun _ => Except.ok "42")
      [("SYSTem", "SCALe")]).2.latestTag = [":SYSTem:SCALe?"] ∧
    (learnRunStore ⟨[":A?"], [], [":OLD:CMD?"]⟩ (fun _ => Except.ok "42")
      [("SYSTem", "SCALe")]).2.latestTag ≠
      [":OLD:CMD?", ":SYSTem:SCALe?"] := by decide

/-- Claim C9: for every static command file and learned file,
`load_all_commands` returns a list sorted in ascending order with no
duplicate entries, even when the two files overlap. -/
theorem claim_C9 (staticLines learnedLines : List String) :
    (load_all_commands staticLines learnedLines).Sorted (· ≤ ·) ∧
    (load_all_commands staticLines learnedLines).Nodup :=
  ⟨load_all_commands_sorted staticLines learnedLines,
   load_all_commands_nodup staticLines learnedLines⟩

/-- Claim C10 (amended): when a discovery run ends with an empty discovered
list, `learn` writes no timestamped or latest file and leaves the store
unchanged, `smart-learn` writes nothing, and `focus` without `--save-csv`
writes no file and has appended nothing to the static command list; `focus`
with `--save-csv` creates its timestamped CSV file (holding only the header)
even when nothing was discovered. -/
theorem claim_C10 (store : Store) (query : String → Except String String)
    (choices : List (String × String)) (known : List String) (dryRun : Bool)
    (depth : Nat) (pfx : String) (wordlist : List String) (fuel : Nat)
    (pfxParts : List String) :
    ((learnRunStore store query choices).1.discovered = [] →
      learnWrites (learnRunStore store query choices).1.discovered = none ∧
      (learnRunStore store query choices).2 = store) ∧
    ((focus_probe known query dryRun false depth pfx wordlist).discovered =
        [] →
      focusRunWrites (focus_probe known query dryRun false depth pfx wordlist)
        false = ⟨none, none, []⟩) ∧
    ((smart_learn_scope known query dryRun fuel pfxParts).discovered = [] →
      learnWrites
        (smart_learn_scope known query dryRun fuel pfxParts).discovered =
        none) := by
  refine ⟨?_, ?_, ?_⟩
  · intro hemp
    refine ⟨by simp [learnWrites, hemp], ?_⟩
    rw [learnRunStore_fst] at hemp
    exact learnRunStore_snd_of_empty store query choices hemp
  · intro hemp
    have happ :=
      (focus_probe_inv known query dryRun false depth pfx wordlist).2.2 hemp
    simp [focusRunWrites, hemp, happ]
  · intro hemp
    simp [learnWrites, hemp]

theorem claim_C10_witness :
    (learnWrites (learnRunStore ⟨[], [], []⟩ (fun _ => Except.ok "")
        []).1.discovered = none ∧
      (learnRunStore ⟨[], [], []⟩ (fun _ => Except.ok "") []).2 =
        ⟨[], [], []⟩) ∧
    focusRunWrites (focus_probe [] (fun _ => Except.ok "") false false 1
      ":P:" []) false = ⟨none, none, []⟩ :=
  ⟨(claim_C10 ⟨[], [], []⟩ (fun _ => Except.ok "") [] [] false 1 ":P:" [] 0
      []).1 (by decide),
   (claim_C10 ⟨[], [], []⟩ (fun _ => Except.ok "") [] [] false 1 ":P:" [] 0
      []).2.1 (by decide)⟩

/-- Claim C10 counterexample: `focus_probe` with `--save-csv` opens the
timestamped CSV file (writing its header row) before the probing loop, so a
run that discovers nothing still writes that output file. -/
theorem claim_C10_counterexample :
    (focus_probe [] (fun _ => Except.ok "") false true 1 ":POWer:QUALity:"
      []).discovered = [] ∧
    (focusRunWrites (focus_probe [] (fun _ => Except.ok "") false true 1
      ":POWer:QUALity:" []) true).csv = some [] := by decide
